import Mathlib

/-!
Shallow embedding of the zylisp/lang core: the s-expression value model
(sexpr/types.go), the lexical environment (interpreter/env.go), the
evaluator (interpreter/eval code) and the primitive library
(interpreter/primitives.go).

Go's mutable, pointer-linked environments are modelled as a store: a list
of frames addressed by index, where a frame holds an association list of
bindings (Go map with insert-or-overwrite semantics) and an optional
parent index.  `NewEnv` appends a frame, so every parent index is strictly
below its child's index; the chain walks in `Lookup`/`Set` recurse on that
decreasing index, driven by an explicit step budget that is always
sufficient for stores built this way.

The evaluator threads the store through every step and returns it even on
error, matching Go's in-place mutation (a failed evaluation does not roll
back `define`s already performed).  Recursion through closure bodies is
not structural, so `eval` takes a fuel parameter; fuel exhaustion is a
distinguished error that the Go code (which may instead diverge or
overflow the stack) never returns.

Go `int64` arithmetic overflow wrap-around is not modelled (plain `Int`);
no claim below depends on it.
-/

namespace Zylisp

/-- sexpr.SExpr from sexpr/types.go: Number, Symbol, String, Bool, Nil,
List, Func (params, body, captured env — here the env's store index),
Primitive (name only; its native code lives in `applyPrim`). -/
inductive SExpr where
  | number (v : Int)
  | symbol (name : String)
  | str (v : String)
  | bool (v : Bool)
  | nil
  | list (elems : List SExpr)
  | func (params : List String) (body : SExpr) (env : Nat)
  | primitive (name : String)

/-- The error values produced by the interpreter's fmt.Errorf calls, one
constructor per distinct message shape, carrying the formatted data. -/
inductive Err where
  | undefinedVariable (name : String)
  | defineArity (got : Nat)
  | defineNotSymbol
  | lambdaArity (got : Nat)
  | lambdaParamsNotList
  | lambdaParamNotSymbol (p : SExpr)
  | ifArity (got : Nat)
  | quoteArity (got : Nat)
  | notAFunction (v : SExpr)
  | funcArity (expected got : Nat)
  | cannotEvaluate (e : SExpr)
  | needsArgs (op : String)
  | expectedNumber (op : String) (arg : SExpr)
  | expectedNumbers (op : String)
  | expectedList (op : String) (arg : SExpr)
  | divByZero
  | primArity (op : String) (got : Nat)
  | emptyList (op : String)
  | consNotList (arg : SExpr)
  | unknownPrimitive (name : String)
  | outOfFuel

/-- One Env record from interpreter/env.go: the bindings map (association
list, unique keys) and the parent pointer (store index). -/
structure Frame where
  bindings : List (String × SExpr)
  parent : Option Nat

/-- The heap of environment records; an environment is an index into it. -/
abbrev Store := List Frame

/-- Read a binding from one frame's map. -/
def lookupBinding : List (String × SExpr) → String → Option SExpr
  | [], _ => none
  | (k, v) :: rest, name => if k = name then some v else lookupBinding rest name

/-- Write a binding into one frame's map: overwrite in place if the key
exists, else insert (Go map assignment). -/
def updateBinding : List (String × SExpr) → String → SExpr → List (String × SExpr)
  | [], name, v => [(name, v)]
  | (k, w) :: rest, name, v =>
    if k = name then (name, v) :: rest else (k, w) :: updateBinding rest name v

/-- NewEnv: append a fresh frame with the given parent; its index is the
old store length. -/
def newEnv (st : Store) (parent : Option Nat) : Store × Nat :=
  (st ++ [⟨[], parent⟩], st.length)

/-- Env.Extend: a fresh child of environment `e`. -/
def extendEnv (st : Store) (e : Nat) : Store × Nat :=
  newEnv st (some e)

/-- Env.Define: bind in this frame only (no error condition). A dangling
index leaves the store unchanged; it never arises for stores built by
`newEnv`. -/
def defineVar (st : Store) (e : Nat) (name : String) (v : SExpr) : Store :=
  match st[e]? with
  | none => st
  | some fr => st.set e ⟨updateBinding fr.bindings name v, fr.parent⟩

/-- Env.Lookup chain walk, with an explicit step budget.  Each step moves
to a parent index strictly below the current one (the `p < e` guard holds
for every store built by `newEnv`), so a budget of `e + 1` never runs out. -/
def lookupIn : Nat → Store → String → Nat → Except Err SExpr
  | 0, _, name, _ => .error (.undefinedVariable name)
  | gas + 1, st, name, e =>
    match st[e]? with
    | none => .error (.undefinedVariable name)
    | some fr =>
      match lookupBinding fr.bindings name with
      | some v => .ok v
      | none =>
        match fr.parent with
        | none => .error (.undefinedVariable name)
        | some p => if p < e then lookupIn gas st name p else .error (.undefinedVariable name)

/-- Env.Lookup: search this scope then parents, innermost first. -/
def lookupVar (st : Store) (name : String) (e : Nat) : Except Err SExpr :=
  lookupIn (e + 1) st name e

/-- Env.Set chain walk: rewrite the first frame that binds `name`, at its
original scope; error (store unchanged) when the chain is exhausted. -/
def setIn : Nat → Store → String → SExpr → Nat → Option Err × Store
  | 0, st, name, _, _ => (some (.undefinedVariable name), st)
  | gas + 1, st, name, v, e =>
    match st[e]? with
    | none => (some (.undefinedVariable name), st)
    | some fr =>
      match lookupBinding fr.bindings name with
      | some _ => (none, st.set e ⟨updateBinding fr.bindings name v, fr.parent⟩)
      | none =>
        match fr.parent with
        | none => (some (.undefinedVariable name), st)
        | some p =>
          if p < e then setIn gas st name v p else (some (.undefinedVariable name), st)

/-- Env.Set: update an existing binding, searching parent environments. -/
def setVar (st : Store) (name : String) (v : SExpr) (e : Nat) : Option Err × Store :=
  setIn (e + 1) st name v e

/-- The scope (store index) holding the nearest binding of `name` on the
chain from `e`, if any — the frame `Set` rewrites and `Lookup` reads. -/
def firstBinderIn : Nat → Store → String → Nat → Option Nat
  | 0, _, _, _ => none
  | gas + 1, st, name, e =>
    match st[e]? with
    | none => none
    | some fr =>
      match lookupBinding fr.bindings name with
      | some _ => some e
      | none =>
        match fr.parent with
        | none => none
        | some p => if p < e then firstBinderIn gas st name p else none

/-- The scope holding the nearest binding of `name` seen from `e`. -/
def firstBinder (st : Store) (name : String) (e : Nat) : Option Nat :=
  firstBinderIn (e + 1) st name e

/-- isTruthy: Bool reads its flag, Nil is false, everything else is true. -/
def isTruthy : SExpr → Bool
  | .bool b => b
  | .nil => false
  | _ => true

/-- Evaluation result: Go's (sexpr.SExpr, error) pair, with the store
threaded through (mutations persist even when an error is returned). -/
abbrev Res := Except Err SExpr × Store

/-- The type of the recursive evaluation callback handed to the helpers. -/
abbrev EvalFn := SExpr → Nat → Store → Res

/-- evalDefine: (define name value) — exact arity 2, name must be a
symbol, evaluate the value, then bind it in the current scope. -/
def evalDefine (ev : EvalFn) (elems : List SExpr) (env : Nat) (st : Store) : Res :=
  match elems with
  | [_, nameE, valueE] =>
    match nameE with
    | .symbol name =>
      match ev valueE env st with
      | (.ok v, st') => (.ok v, defineVar st' env name v)
      | (.error er, st') => (.error er, st')
    | _ => (.error .defineNotSymbol, st)
  | _ => (.error (.defineArity (elems.length - 1)), st)

/-- The params loop of evalLambda: every element must be a symbol. -/
def extractParams : List SExpr → Except Err (List String)
  | [] => .ok []
  | .symbol s :: rest => (extractParams rest).map (s :: ·)
  | p :: _ => .error (.lambdaParamNotSymbol p)

/-- evalLambda: (lambda (params...) body) — build a Func capturing the
current environment index (by reference) and the unevaluated body. -/
def evalLambda (elems : List SExpr) (env : Nat) (st : Store) : Res :=
  match elems with
  | [_, paramsE, body] =>
    match paramsE with
    | .list ps =>
      match extractParams ps with
      | .ok params => (.ok (.func params body env), st)
      | .error er => (.error er, st)
    | _ => (.error .lambdaParamsNotList, st)
  | _ => (.error (.lambdaArity (elems.length - 1)), st)

/-- evalIf: (if test then else) — evaluate the test, then exactly one
branch according to isTruthy. -/
def evalIf (ev : EvalFn) (elems : List SExpr) (env : Nat) (st : Store) : Res :=
  match elems with
  | [_, test, thenE, elseE] =>
    match ev test env st with
    | (.ok v, st') => if isTruthy v then ev thenE env st' else ev elseE env st'
    | (.error er, st') => (.error er, st')
  | _ => (.error (.ifArity (elems.length - 1)), st)

/-- evalQuote: (quote expr) — return the operand unevaluated. -/
def evalQuote (elems : List SExpr) (st : Store) : Res :=
  match elems with
  | [_, e] => (.ok e, st)
  | _ => (.error (.quoteArity (elems.length - 1)), st)

/-- The argument loop of evalApply: left to right, stopping at the first
error, which is returned unchanged. -/
def evalArgs (ev : EvalFn) : List SExpr → Nat → Store → Except Err (List SExpr) × Store
  | [], _, st => (.ok [], st)
  | a :: rest, env, st =>
    match ev a env st with
    | (.ok v, st') =>
      match evalArgs ev rest env st' with
      | (.ok vs, st'') => (.ok (v :: vs), st'')
      | (.error er, st'') => (.error er, st'')
    | (.error er, st') => (.error er, st')

/-- The parameter-binding loop of applyFunc. -/
def bindParams : Store → Nat → List String → List SExpr → Store
  | st, _, [], _ => st
  | st, _, _ :: _, [] => st
  | st, e, p :: ps, a :: rest => bindParams (defineVar st e p a) e ps rest

/-- applyFunc: arity check, then one fresh child of the closure's captured
environment, bind each parameter to its argument there, and evaluate the
body in that child. -/
def applyFunc (ev : EvalFn) (params : List String) (body : SExpr) (fenv : Nat)
    (args : List SExpr) (st : Store) : Res :=
  if args.length ≠ params.length then
    (.error (.funcArity params.length args.length), st)
  else
    let (st', funcEnv) := extendEnv st fenv
    ev body funcEnv (bindParams st' funcEnv params args)

/-- The summing loop of primAdd, with the per-element type check. -/
def sumNums (op : String) : Int → List SExpr → Except Err Int
  | acc, [] => .ok acc
  | acc, a :: rest =>
    match a with
    | .number m => sumNums op (acc + m) rest
    | _ => .error (.expectedNumber op a)

/-- primAdd: variadic sum; zero arguments yield 0. -/
def primAdd (args : List SExpr) : Except Err SExpr :=
  (sumNums "+" 0 args).map .number

/-- The subtracting loop of primSub. -/
def subLoop : Int → List SExpr → Except Err Int
  | acc, [] => .ok acc
  | acc, a :: rest =>
    match a with
    | .number m => subLoop (acc - m) rest
    | _ => .error (.expectedNumber "-" a)

/-- primSub: at least one argument; one argument negates. -/
def primSub (args : List SExpr) : Except Err SExpr :=
  match args with
  | [] => .error (.needsArgs "-")
  | first :: rest =>
    match first with
    | .number f =>
      match rest with
      | [] => .ok (.number (-f))
      | _ => (subLoop f rest).map .number
    | _ => .error (.expectedNumber "-" first)

/-- The multiplying loop of primMul. -/
def mulLoop : Int → List SExpr → Except Err Int
  | acc, [] => .ok acc
  | acc, a :: rest =>
    match a with
    | .number m => mulLoop (acc * m) rest
    | _ => .error (.expectedNumber "*" a)

/-- primMul: variadic product; zero arguments yield 1. -/
def primMul (args : List SExpr) : Except Err SExpr :=
  (mulLoop 1 args).map .number

/-- The dividing loop of primDiv: type check, then zero check, then
truncated division — so a zero divisor is reported before dividing by it. -/
def divLoop : Int → List SExpr → Except Err Int
  | acc, [] => .ok acc
  | acc, a :: rest =>
    match a with
    | .number m => if m = 0 then .error .divByZero else divLoop (Int.tdiv acc m) rest
    | _ => .error (.expectedNumber "/" a)

/-- primDiv: at least one argument; one argument yields the truncated
quotient 1 / first (after a zero check); otherwise fold truncated
division over the remaining operands, each zero-checked before use. -/
def primDiv (args : List SExpr) : Except Err SExpr :=
  match args with
  | [] => .error (.needsArgs "/")
  | first :: rest =>
    match first with
    | .number f =>
      match rest with
      | [] =>
        if f = 0 then .error .divByZero else .ok (.number (Int.tdiv 1 f))
      | _ => (divLoop f rest).map .number
    | _ => .error (.expectedNumber "/" first)

/-- The shared shape of the two-number comparison primitives. -/
def primCompare (op : String) (cmp : Int → Int → Bool) (args : List SExpr) :
    Except Err SExpr :=
  match args with
  | [.number a, .number b] => .ok (.bool (cmp a b))
  | [_, _] => .error (.expectedNumbers op)
  | _ => .error (.primArity op args.length)

/-- primList: variadic list constructor. -/
def primList (args : List SExpr) : Except Err SExpr :=
  .ok (.list args)

/-- primCar: one list argument; error on the empty list. -/
def primCar (args : List SExpr) : Except Err SExpr :=
  match args with
  | [.list elems] =>
    match elems with
    | [] => .error (.emptyList "car")
    | first :: _ => .ok first
  | [a] => .error (.expectedList "car" a)
  | _ => .error (.primArity "car" args.length)

/-- primCdr: one list argument; error on the empty list. -/
def primCdr (args : List SExpr) : Except Err SExpr :=
  match args with
  | [.list elems] =>
    match elems with
    | [] => .error (.emptyList "cdr")
    | _ :: rest => .ok (.list rest)
  | [a] => .error (.expectedList "cdr" a)
  | _ => .error (.primArity "cdr" args.length)

/-- primCons: two arguments, the second a list; prepend without mutation. -/
def primCons (args : List SExpr) : Except Err SExpr :=
  match args with
  | [a, .list elems] => .ok (.list (a :: elems))
  | [_, b] => .error (.consNotList b)
  | _ => .error (.primArity "cons" args.length)

/-- primIsNumber. -/
def primIsNumber (args : List SExpr) : Except Err SExpr :=
  match args with
  | [.number _] => .ok (.bool true)
  | [_] => .ok (.bool false)
  | _ => .error (.primArity "number?" args.length)

/-- primIsSymbol. -/
def primIsSymbol (args : List SExpr) : Except Err SExpr :=
  match args with
  | [.symbol _] => .ok (.bool true)
  | [_] => .ok (.bool false)
  | _ => .error (.primArity "symbol?" args.length)

/-- primIsList. -/
def primIsList (args : List SExpr) : Except Err SExpr :=
  match args with
  | [.list _] => .ok (.bool true)
  | [_] => .ok (.bool false)
  | _ => .error (.primArity "list?" args.length)

/-- primIsNull: true exactly for an empty list; false for non-lists. -/
def primIsNull (args : List SExpr) : Except Err SExpr :=
  match args with
  | [.list elems] => .ok (.bool (elems.length = 0))
  | [_] => .ok (.bool false)
  | _ => .error (.primArity "null?" args.length)

/-- The native code of the registered primitives, dispatched by the name
stored in the Primitive value (LoadPrimitives only ever builds Primitive
values whose name is one of these); primitives ignore the environment. -/
def applyPrim (name : String) (args : List SExpr) : Except Err SExpr :=
  if name = "+" then primAdd args
  else if name = "-" then primSub args
  else if name = "*" then primMul args
  else if name = "/" then primDiv args
  else if name = "=" then primCompare "=" (· = ·) args
  else if name = "<" then primCompare "<" (· < ·) args
  else if name = ">" then primCompare ">" (· > ·) args
  else if name = "<=" then primCompare "<=" (· ≤ ·) args
  else if name = ">=" then primCompare ">=" (· ≥ ·) args
  else if name = "list" then primList args
  else if name = "car" then primCar args
  else if name = "cdr" then primCdr args
  else if name = "cons" then primCons args
  else if name = "number?" then primIsNumber args
  else if name = "symbol?" then primIsSymbol args
  else if name = "list?" then primIsList args
  else if name = "null?" then primIsNull args
  else .error (.unknownPrimitive name)

/-- LoadPrimitives: register every built-in in the given environment, in
source order. -/
def loadPrimitives (st : Store) (e : Nat) : Store :=
  ["+", "-", "*", "/", "=", "<", ">", "<=", ">=",
   "list", "car", "cdr", "cons",
   "number?", "symbol?", "list?", "null?"].foldl
    (fun s n => defineVar s e n (.primitive n)) st

/-- evalApply: evaluate the head to a callable, then the arguments left to
right, then dispatch on the callable's variant. -/
def evalApply (ev : EvalFn) (first : SExpr) (rest : List SExpr) (env : Nat)
    (st : Store) : Res :=
  match ev first env st with
  | (.error er, st') => (.error er, st')
  | (.ok fn, st') =>
    match evalArgs ev rest env st' with
    | (.error er, st'') => (.error er, st'')
    | (.ok args, st'') =>
      match fn with
      | .primitive name => (applyPrim name args, st'')
      | .func params body fenv => applyFunc ev params body fenv args st''
      | _ => (.error (.notAFunction fn), st'')

/-- evalList: an empty list is Nil; otherwise dispatch on the head symbol
for the four special forms, else function application. -/
def evalList (ev : EvalFn) (elems : List SExpr) (env : Nat) (st : Store) : Res :=
  match elems with
  | [] => (.ok .nil, st)
  | first :: rest =>
    match first with
    | .symbol name =>
      if name = "define" then evalDefine ev elems env st
      else if name = "lambda" then evalLambda elems env st
      else if name = "if" then evalIf ev elems env st
      else if name = "quote" then evalQuote elems st
      else evalApply ev first rest env st
    | _ => evalApply ev first rest env st

/-- Eval: self-evaluating literals, symbol lookup, list dispatch; Func and
Primitive values fall to the cannot-evaluate default.  The extra fuel
argument bounds recursion through closure bodies; every recursive call in
the Go code spends one unit. -/
def eval : Nat → SExpr → Nat → Store → Res
  | 0, _, _, st => (.error .outOfFuel, st)
  | fuel + 1, expr, env, st =>
    match expr with
    | .number v => (.ok (.number v), st)
    | .str s => (.ok (.str s), st)
    | .bool b => (.ok (.bool b), st)
    | .nil => (.ok .nil, st)
    | .symbol name =>
      match lookupVar st name env with
      | .ok v => (.ok v, st)
      | .error er => (.error er, st)
    | .list elems => evalList (eval fuel) elems env st
    | e => (.error (.cannotEvaluate e), st)

/-- The bindings a fresh frame holds after applyFunc's parameter loop:
fold the insert-or-overwrite map update over the parameter list. -/
def bindAll : List (String × SExpr) → List String → List SExpr → List (String × SExpr)
  | bs, [], _ => bs
  | bs, _ :: _, [] => bs
  | bs, p :: ps, a :: rest => bindAll (updateBinding bs p a) ps rest

/-! ### Supporting lemmas about frames, stores and binding maps -/

theorem lookupBinding_updateBinding_self (bs : List (String × SExpr)) (k : String)
    (v : SExpr) : lookupBinding (updateBinding bs k v) k = some v := by
  induction bs with
  | nil => simp [updateBinding, lookupBinding]
  | cons hd tl ih =>
    obtain ⟨k', w⟩ := hd
    by_cases h : k' = k
    · simp [updateBinding, lookupBinding, h]
    · simp [updateBinding, lookupBinding, h, ih]

theorem lookupBinding_updateBinding_ne (bs : List (String × SExpr)) (k k' : String)
    (v : SExpr) (h : k ≠ k') :
    lookupBinding (updateBinding bs k v) k' = lookupBinding bs k' := by
  induction bs with
  | nil => simp [updateBinding, lookupBinding, h]
  | cons hd tl ih =>
    obtain ⟨k₀, w⟩ := hd
    by_cases h₀ : k₀ = k
    · subst h₀
      simp [updateBinding, lookupBinding, h]
    · simp [updateBinding, lookupBinding, h₀, ih]

theorem lookupBinding_bindAll_notMem (ps : List String) :
    ∀ (bs : List (String × SExpr)) (vs : List SExpr) (p : String), p ∉ ps →
      lookupBinding (bindAll bs ps vs) p = lookupBinding bs p := by
  induction ps with
  | nil => intro bs vs p _; cases vs <;> simp [bindAll]
  | cons q ps ih =>
    intro bs vs p hp
    cases vs with
    | nil => simp [bindAll]
    | cons a rest =>
      have hq : q ≠ p := fun h => hp (h ▸ List.mem_cons_self q ps)
      have hps : p ∉ ps := fun h => hp (List.mem_cons_of_mem _ h)
      rw [bindAll, ih _ _ _ hps, lookupBinding_updateBinding_ne _ _ _ _ hq]

theorem lookupBinding_bindAll (ps : List String) :
    ∀ (bs : List (String × SExpr)) (vs : List SExpr), ps.Nodup →
      ∀ p a, (p, a) ∈ ps.zip vs → lookupBinding (bindAll bs ps vs) p = some a := by
  induction ps with
  | nil => intro bs vs _ p a h; simp at h
  | cons q ps ih =>
    intro bs vs hnd p a h
    cases vs with
    | nil => simp at h
    | cons b rest =>
      rcases List.mem_cons.mp h with h | h
      · have hp : p = q := congrArg Prod.fst h
        have ha : a = b := congrArg Prod.snd h
        subst hp; subst ha
        have hq : p ∉ ps := (List.nodup_cons.mp hnd).1
        rw [bindAll, lookupBinding_bindAll_notMem _ _ _ _ hq,
          lookupBinding_updateBinding_self]
      · rw [bindAll]
        exact ih _ _ (List.nodup_cons.mp hnd).2 p a h

theorem getElem?_append_lt (st st₂ : Store) :
    ∀ i : Nat, i < st.length → (st ++ st₂)[i]? = st[i]? := by
  induction st with
  | nil => intro i h; simp at h
  | cons f tl ih =>
    intro i h
    cases i with
    | zero => simp
    | succ j => simpa using ih j (by simpa using h)

theorem getElem?_append_len (st : Store) (f : Frame) :
    (st ++ [f])[st.length]? = some f := by
  induction st with
  | nil => simp
  | cons g tl ih => simp [ih]

theorem set_append_len (st : Store) (f g : Frame) :
    (st ++ [f]).set st.length g = st ++ [g] := by
  induction st with
  | nil => simp
  | cons h tl ih => simp [List.set, ih]

theorem getElem?_lt_length {st : Store} {i : Nat} {fr : Frame}
    (h : st[i]? = some fr) : i < st.length := by
  by_contra hc
  rw [List.getElem?_eq_none (Nat.le_of_not_lt hc)] at h
  exact Option.noConfusion h

theorem set_getElem?_self (st : Store) :
    ∀ (i : Nat) (g : Frame), i < st.length → (st.set i g)[i]? = some g := by
  induction st with
  | nil => intro i g h; simp at h
  | cons f tl ih =>
    intro i g h
    cases i with
    | zero => simp [List.set]
    | succ j => simpa [List.set] using ih j g (by simpa using h)

theorem set_getElem?_ne (st : Store) :
    ∀ (i j : Nat) (g : Frame), i ≠ j → (st.set i g)[j]? = st[j]? := by
  induction st with
  | nil => intro i j g _; simp
  | cons f tl ih =>
    intro i j g h
    cases i with
    | zero =>
      cases j with
      | zero => exact absurd rfl h
      | succ j' => simp [List.set]
    | succ i' =>
      cases j with
      | zero => simp [List.set]
      | succ j' => simpa [List.set] using ih i' j' g (fun hc => h (by rw [hc]))

theorem defineVar_eq {st : Store} {e : Nat} {fr : Frame} (x : String) (v : SExpr)
    (h : st[e]? = some fr) :
    defineVar st e x v = st.set e ⟨updateBinding fr.bindings x v, fr.parent⟩ := by
  simp [defineVar, h]

theorem bindParams_append (st : Store) (par : Option Nat) :
    ∀ (ps : List String) (bs : List (String × SExpr)) (vs : List SExpr),
      bindParams (st ++ [⟨bs, par⟩]) st.length ps vs
        = st ++ [⟨bindAll bs ps vs, par⟩] := by
  intro ps
  induction ps with
  | nil => intro bs vs; cases vs <;> rfl
  | cons p ps ih =>
    intro bs vs
    cases vs with
    | nil => rfl
    | cons a rest =>
      rw [bindParams, bindAll,
        defineVar_eq p a (getElem?_append_len st ⟨bs, par⟩),
        set_append_len]
      exact ih (updateBinding bs p a) rest

theorem tdiv_one_eq_zero (f : Int) (h : 1 < f.natAbs) : Int.tdiv 1 f = 0 := by
  cases f with
  | ofNat k =>
    show Int.tdiv (Int.ofNat 1) (Int.ofNat k) = 0
    have hk : 1 < k := by simpa using h
    simp only [Int.tdiv]
    rw [Nat.div_eq_of_lt hk]
    rfl
  | negSucc m =>
    show Int.tdiv (Int.ofNat 1) (Int.negSucc m) = 0
    have hm : 1 < m + 1 := by simpa using h
    simp only [Int.tdiv]
    rw [Nat.div_eq_of_lt hm]
    rfl

theorem divLoop_divByZero_iff :
    ∀ (l : List SExpr) (acc : Int), (∀ a ∈ l, ∃ m : Int, a = .number m) →
      (divLoop acc l = .error .divByZero ↔ .number 0 ∈ l) := by
  intro l
  induction l with
  | nil => intro acc _; simp [divLoop]
  | cons a rest ih =>
    intro acc hall
    obtain ⟨m, rfl⟩ := hall a (List.mem_cons_self a rest)
    by_cases hm : m = 0
    · subst hm; simp [divLoop]
    · have htl := ih (Int.tdiv acc m) (fun b hb => hall b (List.mem_cons_of_mem _ hb))
      rw [show divLoop acc (.number m :: rest)
          = if m = 0 then Except.error Err.divByZero
            else divLoop (Int.tdiv acc m) rest from rfl,
        if_neg hm, htl]
      simp only [List.mem_cons, SExpr.number.injEq]
      constructor
      · exact fun hmem => Or.inr hmem
      · rintro (hc | hmem)
        · exact absurd hc.symm hm
        · exact hmem

theorem lookupIn_found {gas : Nat} {st : Store} {name : String} {e : Nat} {fr : Frame}
    {v : SExpr} (h1 : st[e]? = some fr) (h2 : lookupBinding fr.bindings name = some v) :
    lookupIn (gas + 1) st name e = .ok v := by
  simp [lookupIn, h1, h2]

theorem setIn_firstBinderIn :
    ∀ (gas : Nat) (st : Store) (name : String) (v : SExpr) (e : Nat),
      (firstBinderIn gas st name e = none →
        setIn gas st name v e = (some (.undefinedVariable name), st))
    ∧ (∀ f, firstBinderIn gas st name e = some f →
        ∃ fr, st[f]? = some fr ∧ (lookupBinding fr.bindings name).isSome
          ∧ setIn gas st name v e
              = (none, st.set f ⟨updateBinding fr.bindings name v, fr.parent⟩))
    ∧ (firstBinderIn gas st name e = none
        ↔ lookupIn gas st name e = .error (.undefinedVariable name)) := by
  intro gas
  induction gas with
  | zero =>
    intro st name v e
    refine ⟨fun _ => rfl, fun f hf => ?_, by simp [firstBinderIn, lookupIn]⟩
    simp [firstBinderIn] at hf
  | succ gas ih =>
    intro st name v e
    rcases hst : st[e]? with _ | fr
    · refine ⟨fun _ => ?_, fun f hf => ?_, ?_⟩
      · simp [setIn, hst]
      · simp [firstBinderIn, hst] at hf
      · simp [firstBinderIn, lookupIn, hst]
    · rcases hlb : lookupBinding fr.bindings name with _ | w
      · rcases hp : fr.parent with _ | p
        · refine ⟨fun _ => ?_, fun f hf => ?_, ?_⟩
          · simp [setIn, hst, hlb, hp]
          · simp [firstBinderIn, hst, hlb, hp] at hf
          · simp [firstBinderIn, lookupIn, hst, hlb, hp]
        · by_cases hpe : p < e
          · have hrec := ih st name v p
            refine ⟨fun h => ?_, fun f hf => ?_, ?_⟩
            · have h' : firstBinderIn gas st name p = none := by
                simpa [firstBinderIn, hst, hlb, hp, hpe] using h
              simp [setIn, hst, hlb, hp, hpe, hrec.1 h']
            · have h' : firstBinderIn gas st name p = some f := by
                simpa [firstBinderIn, hst, hlb, hp, hpe] using hf
              obtain ⟨fr', h1, h2, h3⟩ := hrec.2.1 f h'
              exact ⟨fr', h1, h2, by simp [setIn, hst, hlb, hp, hpe, h3]⟩
            · simp [firstBinderIn, lookupIn, hst, hlb, hp, hpe, hrec.2.2]
          · refine ⟨fun _ => ?_, fun f hf => ?_, ?_⟩
            · simp [setIn, hst, hlb, hp, hpe]
            · simp [firstBinderIn, hst, hlb, hp, hpe] at hf
            · simp [firstBinderIn, lookupIn, hst, hlb, hp, hpe]
      · refine ⟨fun h => ?_, fun f hf => ?_, ?_⟩
        · simp [firstBinderIn, hst, hlb] at h
        · have hf' : e = f := by simpa [firstBinderIn, hst, hlb] using hf
          subst hf'
          exact ⟨fr, hst, by simp [hlb], by simp [setIn, hst, hlb]⟩
        · simp [firstBinderIn, lookupIn, hst, hlb]

/-! ### Claim theorems -/

/-- Claim C9: Number, String, Bool and Nil literals evaluate to
themselves, unchanged and independent of the environment: the result of
evaluating a Number literal is identical across any two environments and
stores. -/
theorem self_evaluation_spec :
    ∀ (n env : Nat) (st : Store),
      (∀ v : Int, eval (n + 1) (.number v) env st = (.ok (.number v), st))
    ∧ (∀ s : String, eval (n + 1) (.str s) env st = (.ok (.str s), st))
    ∧ (∀ b : Bool, eval (n + 1) (.bool b) env st = (.ok (.bool b), st))
    ∧ eval (n + 1) .nil env st = (.ok .nil, st)
    ∧ (∀ (v : Int) (env₂ : Nat) (st₂ : Store),
        (eval (n + 1) (.number v) env st).1 = (eval (n + 1) (.number v) env₂ st₂).1) :=
  fun _ _ _ => ⟨fun _ => rfl, fun _ => rfl, fun _ => rfl, rfl, fun _ _ _ => rfl⟩

/-- Claim C3: (if test then else) evaluates the test and then exactly the
branch isTruthy selects, in the store the test left behind, so an error
in the untaken branch never propagates; a value is falsy exactly when it
is Bool(false) or Nil, and Number(0), String("") and the empty list are
all truthy. -/
theorem evalIf_spec :
    ∀ (n env : Nat) (st : Store) (test thenE elseE : SExpr),
      (eval (n + 1) (.list [.symbol "if", test, thenE, elseE]) env st
        = match eval n test env st with
          | (.ok v, st') => if isTruthy v then eval n thenE env st' else eval n elseE env st'
          | (.error er, st') => (.error er, st'))
    ∧ (∀ v : SExpr, isTruthy v = false ↔ v = .bool false ∨ v = .nil)
    ∧ isTruthy (.number 0) = true
    ∧ isTruthy (.str "") = true
    ∧ isTruthy (.list []) = true := by
  intro n env st test thenE elseE
  refine ⟨rfl, ?_, rfl, rfl, rfl⟩
  intro v
  cases v <;> simp [isTruthy]

/-- Claim C8: each special form invoked with the wrong number of operands
fails with the arity error naming that form and the operand count it
received (define and lambda take exactly 2 operands, if takes 3, quote
takes 1). -/
theorem special_form_arity_spec :
    ∀ (n env : Nat) (st : Store) (rest : List SExpr),
      (rest.length ≠ 2 →
        eval (n + 1) (.list (.symbol "define" :: rest)) env st
          = (.error (.defineArity rest.length), st))
    ∧ (rest.length ≠ 2 →
        eval (n + 1) (.list (.symbol "lambda" :: rest)) env st
          = (.error (.lambdaArity rest.length), st))
    ∧ (rest.length ≠ 3 →
        eval (n + 1) (.list (.symbol "if" :: rest)) env st
          = (.error (.ifArity rest.length), st))
    ∧ (rest.length ≠ 1 →
        eval (n + 1) (.list (.symbol "quote" :: rest)) env st
          = (.error (.quoteArity rest.length), st)) := by
  intro n env st rest
  refine ⟨fun h => ?_, fun h => ?_, fun h => ?_, fun h => ?_⟩
  · rcases rest with _ | ⟨a, _ | ⟨b, _ | ⟨c, u⟩⟩⟩
    · rfl
    · rfl
    · exact absurd rfl h
    · rfl
  · rcases rest with _ | ⟨a, _ | ⟨b, _ | ⟨c, u⟩⟩⟩
    · rfl
    · rfl
    · exact absurd rfl h
    · rfl
  · rcases rest with _ | ⟨a, _ | ⟨b, _ | ⟨c, _ | ⟨d, u⟩⟩⟩⟩
    · rfl
    · rfl
    · rfl
    · exact absurd rfl h
    · rfl
  · rcases rest with _ | ⟨a, _ | ⟨b, u⟩⟩
    · rfl
    · exact absurd rfl h
    · rfl

/-- Claim C8 witness: each form rejected at a concrete wrong operand
count, with the form's own arity error carrying that count. -/
theorem special_form_arity_spec_witness :
    eval 1 (.list [.symbol "define"]) 0 [] = (.error (.defineArity 0), [])
  ∧ eval 1 (.list [.symbol "lambda", .nil]) 0 [] = (.error (.lambdaArity 1), [])
  ∧ eval 1 (.list [.symbol "if"]) 0 [] = (.error (.ifArity 0), [])
  ∧ eval 1 (.list [.symbol "quote", .nil, .nil]) 0 [] = (.error (.quoteArity 2), []) :=
  ⟨(special_form_arity_spec 0 0 [] []).1 (by decide),
   (special_form_arity_spec 0 0 [] [.nil]).2.1 (by decide),
   (special_form_arity_spec 0 0 [] []).2.2.1 (by decide),
   (special_form_arity_spec 0 0 [] [.nil, .nil]).2.2.2 (by decide)⟩

/-- Claim C10 counterexample: evaluating
(define x (if (define x 99) zzz 0)) in a fresh global environment fails
with UndefinedVariable("zzz"), yet the environment chain is NOT left
unchanged and a binding for x HAS been created (x ↦ 99, written by the
inner define while the value expression was being evaluated), refuting
the claim that a failed define leaves the chain unchanged and creates or
modifies no binding for x. -/
theorem define_error_mutation_counterexample :
    eval 10 (.list [.symbol "define", .symbol "x",
        .list [.symbol "if", .list [.symbol "define", .symbol "x", .number 99],
          .symbol "zzz", .number 0]]) 0 [⟨[], none⟩]
      = (.error (.undefinedVariable "zzz"), [⟨[("x", .number 99)], none⟩]) := rfl

/-- Claim C10 as amended: when the value expression of (define x e) fails,
the error is returned and the define performs no binding step of its own —
the store is returned exactly as e's evaluation left it (so the chain is
unchanged whenever e's own evaluation did not mutate it). -/
theorem evalDefine_error_spec :
    ∀ (n env : Nat) (st st' : Store) (x : String) (e : SExpr) (er : Err),
      eval n e env st = (.error er, st') →
      eval (n + 1) (.list [.symbol "define", .symbol x, e]) env st = (.error er, st') := by
  intro n env st st' x e er h
  simp [eval, evalList, evalDefine, h]

/-- Claim C10 witness: a define whose value expression fails without
mutating anything returns the error with the store untouched. -/
theorem evalDefine_error_spec_witness :
    eval 2 (.list [.symbol "define", .symbol "x", .symbol "y"]) 0 [⟨[], none⟩]
      = (.error (.undefinedVariable "y"), [⟨[], none⟩]) :=
  evalDefine_error_spec 1 0 [⟨[], none⟩] [⟨[], none⟩] "x" (.symbol "y")
    (.undefinedVariable "y") rfl

/-- Claim C4: / with no arguments is rejected; with one nonzero Number
argument it returns the truncated integer quotient 1 / n — Number(0)
whenever the argument's absolute value exceeds 1 — after a zero check;
and with Number operands it fails with the division-by-zero error exactly
when some divisor operand (the sole argument, or any argument after the
first) is zero. -/
theorem primDiv_spec :
    ∀ (f : Int) (rest : List SExpr),
      primDiv [] = .error (.needsArgs "/")
    ∧ (primDiv [.number f]
        = if f = 0 then .error .divByZero else .ok (.number (Int.tdiv 1 f)))
    ∧ (1 < f.natAbs → primDiv [.number f] = .ok (.number 0))
    ∧ ((∀ a ∈ rest, ∃ m : Int, a = .number m) → rest ≠ [] →
        (primDiv (.number f :: rest) = .error .divByZero ↔ .number 0 ∈ rest)) := by
  intro f rest
  refine ⟨rfl, rfl, fun h => ?_, fun hall hne => ?_⟩
  · have hf : ¬ f = 0 := by
      intro h0
      subst h0
      simp at h
    simp [primDiv, hf, tdiv_one_eq_zero f h]
  · rcases rest with _ | ⟨b, rest'⟩
    · exact absurd rfl hne
    · have hiff := divLoop_divByZero_iff (b :: rest') f hall
      show (divLoop f (b :: rest')).map SExpr.number = .error .divByZero ↔ _
      cases hd : divLoop f (b :: rest') with
      | error er =>
        rw [hd] at hiff
        simpa [Except.map] using hiff
      | ok val =>
        rw [hd] at hiff
        simp only [Except.map]
        simp at hiff ⊢
        exact hiff

/-- Claim C4 witness: (/ 5) returns Number(0); (/ 5 0) fails with the
division-by-zero error. -/
theorem primDiv_spec_witness :
    primDiv [.number 5] = .ok (.number 0)
  ∧ primDiv [.number 5, .number 0] = .error .divByZero :=
  ⟨(primDiv_spec 5 []).2.2.1 (by decide),
   ((primDiv_spec 5 [.number 0]).2.2.2
      (fun a ha => ⟨0, by simpa using ha⟩) (by simp)).mpr (by simp)⟩

/-- Claim C1: applying a Closure fails with the arity error (expected
parameter count, received argument count) when the counts differ;
otherwise the evaluator builds exactly one fresh child frame whose parent
is the closure's captured environment (the caller's environment plays no
part: applyFunc does not even receive it), binds each parameter name to
its corresponding argument in that child, and evaluates the body there,
returning its result. -/
theorem applyFunc_spec :
    ∀ (n : Nat) (params : List String) (body : SExpr) (fenv : Nat)
      (args : List SExpr) (st : Store),
      (args.length ≠ params.length →
        applyFunc (eval n) params body fenv args st
          = (.error (.funcArity params.length args.length), st))
    ∧ (args.length = params.length →
        applyFunc (eval n) params body fenv args st
          = eval n body st.length (st ++ [⟨bindAll [] params args, some fenv⟩]))
    ∧ (params.Nodup →
        ∀ p a, (p, a) ∈ params.zip args →
          lookupBinding (bindAll [] params args) p = some a) := by
  intro n params body fenv args st
  refine ⟨fun h => ?_, fun h => ?_, fun hnd p a hm => ?_⟩
  · simp [applyFunc, h]
  · simp only [applyFunc, if_neg (show ¬ args.length ≠ params.length from fun hc => hc h)]
    show eval n body st.length (bindParams (st ++ [⟨[], some fenv⟩]) st.length params args) = _
    rw [bindParams_append]
  · exact lookupBinding_bindAll params [] args hnd p a hm

/-- Claim C1 witness: a one-parameter closure applied to two arguments
fails with the arity error; applied to one argument it evaluates its body
in a fresh child of the captured environment where the parameter is bound
to the argument. -/
theorem applyFunc_spec_witness :
    applyFunc (eval 5) ["x"] (.symbol "x") 0 [.number 1, .number 2] [⟨[], none⟩]
      = (.error (.funcArity 1 2), [⟨[], none⟩])
  ∧ applyFunc (eval 5) ["x"] (.symbol "x") 0 [.number 7] [⟨[], none⟩]
      = eval 5 (.symbol "x") 1 ([⟨[], none⟩] ++ [⟨bindAll [] ["x"] [.number 7], some 0⟩])
  ∧ lookupBinding (bindAll [] ["x"] [.number 7]) "x" = some (.number 7) :=
  ⟨(applyFunc_spec 5 ["x"] (.symbol "x") 0 [.number 1, .number 2] [⟨[], none⟩]).1 (by decide),
   (applyFunc_spec 5 ["x"] (.symbol "x") 0 [.number 7] [⟨[], none⟩]).2.1 rfl,
   (applyFunc_spec 5 ["x"] (.symbol "x") 0 [.number 7] [⟨[], none⟩]).2.2 (by simp)
     "x" (.number 7) (by simp)⟩

/-- Claim C2: lambda stores the defining environment by reference (the
closure records that environment's identity, not a copy of its bindings)
together with the unevaluated body; consequently, after redefining a name
in the captured environment, applying a closure whose body looks that
name up yields the new value, whatever the binding held when the closure
was created. -/
theorem closure_capture_spec :
    ∀ (n env : Nat) (st : Store) (ps : List SExpr) (names : List String)
      (body : SExpr) (fr : Frame) (e : Nat) (x : String) (v2 : SExpr),
      (extractParams ps = .ok names →
        eval (n + 1) (.list [.symbol "lambda", .list ps, body]) env st
          = (.ok (.func names body env), st))
    ∧ (st[e]? = some fr →
        applyFunc (eval (n + 1)) [] (.symbol x) e [] (defineVar st e x v2)
          = (.ok v2, defineVar st e x v2 ++ [⟨[], some e⟩])) := by
  intro n env st ps names body fr e x v2
  constructor
  · intro h
    simp [eval, evalList, evalLambda, h]
  · intro h
    have he : e < st.length := getElem?_lt_length h
    have hdv : defineVar st e x v2 = st.set e ⟨updateBinding fr.bindings x v2, fr.parent⟩ :=
      defineVar_eq x v2 h
    have hlen2 : (defineVar st e x v2).length = st.length := by
      rw [hdv]; exact List.length_set st ..
    have he2 : e < (defineVar st e x v2).length := by omega
    have hlk : lookupVar (defineVar st e x v2 ++ [⟨[], some e⟩]) x
        (defineVar st e x v2).length = .ok v2 := by
      show lookupIn ((defineVar st e x v2).length + 1) _ x _ = .ok v2
      rw [lookupIn, getElem?_append_len]
      show (if e < (defineVar st e x v2).length
        then lookupIn (defineVar st e x v2).length
          (defineVar st e x v2 ++ [⟨[], some e⟩]) x e
        else .error (.undefinedVariable x)) = .ok v2
      rw [if_pos he2]
      obtain ⟨k, hk⟩ : ∃ k, (defineVar st e x v2).length = k + 1 :=
        ⟨(defineVar st e x v2).length - 1, by omega⟩
      rw [hk, lookupIn, getElem?_append_lt _ _ e he2, hdv, set_getElem?_self st e _ he]
      show (match lookupBinding (updateBinding fr.bindings x v2) x with
        | some v => Except.ok v
        | none => _) = Except.ok v2
      rw [lookupBinding_updateBinding_self]
    show (match lookupVar (defineVar st e x v2 ++ [⟨[], some e⟩]) x
        (defineVar st e x v2).length with
      | Except.ok v => ((Except.ok v : Except Err SExpr),
          defineVar st e x v2 ++ [⟨[], some e⟩])
      | Except.error er => ((Except.error er : Except Err SExpr),
          defineVar st e x v2 ++ [⟨[], some e⟩]))
      = ((Except.ok v2 : Except Err SExpr), defineVar st e x v2 ++ [⟨[], some e⟩])
    rw [hlk]

/-- Claim C2 witness: a closure over the global frame where x was 1 at
creation time returns 2 after x is redefined to 2; and lambda stores its
body unevaluated with the environment reference. -/
theorem closure_capture_spec_witness :
    eval 3 (.list [.symbol "lambda", .list [], .symbol "x"]) 0 [⟨[("x", .number 1)], none⟩]
      = (.ok (.func [] (.symbol "x") 0), [⟨[("x", .number 1)], none⟩])
  ∧ applyFunc (eval 3) [] (.symbol "x") 0 []
        (defineVar [⟨[("x", .number 1)], none⟩] 0 "x" (.number 2))
      = (.ok (.number 2),
         defineVar [⟨[("x", .number 1)], none⟩] 0 "x" (.number 2) ++ [⟨[], some 0⟩]) :=
  ⟨(closure_capture_spec 2 0 ([⟨[("x", SExpr.number 1)], none⟩] : Store) [] []
      (SExpr.symbol "x") (⟨[("x", SExpr.number 1)], none⟩ : Frame) 0 "x" (SExpr.number 2)).1
      rfl,
   (closure_capture_spec 2 0 ([⟨[("x", SExpr.number 1)], none⟩] : Store) [] []
      (SExpr.symbol "x") (⟨[("x", SExpr.number 1)], none⟩ : Frame) 0 "x" (SExpr.number 2)).2
      rfl⟩

/-- Claim C5: in a function application the head is evaluated first; a
failing head aborts the application with that error, the argument
expressions untouched; the arguments are then evaluated strictly left to
right, the first failing argument aborting with its error unchanged and
the later arguments unevaluated; a callable that is neither a Primitive
nor a Closure is rejected with the not-a-function error naming it; and
(foo 1 2) with foo unbound fails with UndefinedVariable("foo"), the
store untouched. -/
theorem evalApply_spec :
    ∀ (n env : Nat) (st st' st'' : Store) (first a v : SExpr) (rest : List SExpr)
      (er : Err) (args : List SExpr),
      (eval n first env st = (.error er, st') →
        evalApply (eval n) first rest env st = (.error er, st'))
    ∧ (eval n a env st = (.error er, st') →
        evalArgs (eval n) (a :: rest) env st = (.error er, st'))
    ∧ (eval n a env st = (.ok v, st') →
        evalArgs (eval n) (a :: rest) env st
          = ((evalArgs (eval n) rest env st').1.map (v :: ·),
             (evalArgs (eval n) rest env st').2))
    ∧ (eval n first env st = (.ok v, st') →
        evalArgs (eval n) rest env st' = (.ok args, st'') →
        (∀ ps b fe, v ≠ .func ps b fe) → (∀ nm, v ≠ .primitive nm) →
        evalApply (eval n) first rest env st = (.error (.notAFunction v), st''))
    ∧ eval 3 (.list [.symbol "foo", .number 1, .number 2]) 0 [⟨[], none⟩]
        = (.error (.undefinedVariable "foo"), [⟨[], none⟩]) := by
  intro n env st st' st'' first a v rest er args
  refine ⟨fun h => ?_, fun h => ?_, fun h => ?_, fun h1 h2 hnf hnp => ?_, rfl⟩
  · simp only [evalApply]
    rw [h]
  · simp only [evalArgs]
    rw [h]
  · simp only [evalArgs, h]
    rcases hr : evalArgs (eval n) rest env st' with ⟨r, s⟩
    cases r <;> simp [Except.map]
  · simp only [evalApply, h1, h2]

/-- Claim C5 witness: a head that fails short-circuits the application;
a failing first argument short-circuits the argument list; a successful
first argument prepends to the remaining arguments' results; and
applying Number(3), which is neither a Primitive nor a Closure, fails
with the not-a-function error naming it. -/
theorem evalApply_spec_witness :
    evalApply (eval 1) (.symbol "g") [.number 1] 0 [⟨[], none⟩]
      = (.error (.undefinedVariable "g"), [⟨[], none⟩])
  ∧ evalArgs (eval 1) [.symbol "h", .number 1] 0 [⟨[], none⟩]
      = (.error (.undefinedVariable "h"), [⟨[], none⟩])
  ∧ evalArgs (eval 1) [.number 4, .number 5] 0 [⟨[], none⟩]
      = ((evalArgs (eval 1) [.number 5] 0 [⟨[], none⟩]).1.map (.number 4 :: ·),
         (evalArgs (eval 1) [.number 5] 0 [⟨[], none⟩]).2)
  ∧ evalApply (eval 1) (.number 3) [.number 1] 0 [⟨[], none⟩]
      = (.error (.notAFunction (.number 3)), [⟨[], none⟩]) :=
  ⟨(evalApply_spec 1 0 ([⟨[], none⟩] : Store) ([⟨[], none⟩] : Store) ([⟨[], none⟩] : Store)
      (.symbol "g") .nil .nil [.number 1] (.undefinedVariable "g") []).1 rfl,
   (evalApply_spec 1 0 ([⟨[], none⟩] : Store) ([⟨[], none⟩] : Store) ([⟨[], none⟩] : Store)
      .nil (.symbol "h") .nil [.number 1] (.undefinedVariable "h") []).2.1 rfl,
   (evalApply_spec 1 0 ([⟨[], none⟩] : Store) ([⟨[], none⟩] : Store) ([⟨[], none⟩] : Store)
      .nil (.number 4) (.number 4) [.number 5] .outOfFuel []).2.2.1 rfl,
   (evalApply_spec 1 0 ([⟨[], none⟩] : Store) ([⟨[], none⟩] : Store) ([⟨[], none⟩] : Store)
      (.number 3) .nil (.number 3) [.number 1] .outOfFuel [.number 1]).2.2.2.1
      rfl rfl (fun _ _ _ h => SExpr.noConfusion h) (fun _ h => SExpr.noConfusion h)⟩

/-- Claim C6: Set searches this scope then each parent in order; when
some scope on the chain binds the name, it rewrites the nearest such
binding at its original scope; when no scope on the chain binds the
name — exactly the situation where Lookup fails — it fails with
UndefinedVariable, creating no binding and returning the store
unchanged. -/
theorem set_spec :
    ∀ (e : Nat) (st : Store) (name : String) (v : SExpr),
      (firstBinder st name e = none →
        setVar st name v e = (some (.undefinedVariable name), st))
    ∧ (∀ f, firstBinder st name e = some f →
        ∃ fr, st[f]? = some fr ∧ (lookupBinding fr.bindings name).isSome
          ∧ setVar st name v e
              = (none, st.set f ⟨updateBinding fr.bindings name v, fr.parent⟩))
    ∧ (firstBinder st name e = none
        ↔ lookupVar st name e = .error (.undefinedVariable name)) :=
  fun e st name v => setIn_firstBinderIn (e + 1) st name v e

/-- Claim C6 witness: on a one-frame chain binding only "a", setting "b"
fails with UndefinedVariable and returns the store unchanged, while
setting "a" rewrites the binding in its frame. -/
theorem set_spec_witness :
    setVar ([⟨[("a", SExpr.number 1)], none⟩] : Store) "b" (.number 2) 0
        = (some (.undefinedVariable "b"), [⟨[("a", SExpr.number 1)], none⟩])
  ∧ (∃ fr, (([⟨[("a", SExpr.number 1)], none⟩] : Store))[0]? = some fr
      ∧ (lookupBinding fr.bindings "a").isSome
      ∧ setVar ([⟨[("a", SExpr.number 1)], none⟩] : Store) "a" (.number 2) 0
          = (none, ([⟨[("a", SExpr.number 1)], none⟩] : Store).set 0
              ⟨updateBinding fr.bindings "a" (.number 2), fr.parent⟩)) :=
  ⟨(set_spec 0 ([⟨[("a", SExpr.number 1)], none⟩] : Store) "b" (.number 2)).1 rfl,
   (set_spec 0 ([⟨[("a", SExpr.number 1)], none⟩] : Store) "a" (.number 2)).2.1 0 rfl⟩

/-- Claim C7: with parent p binding x and child c = p.extend(), after
c.define(x, v2) a lookup from c finds v2 while p's frame is unchanged
and a lookup from p still finds the original value: define writes only
into the scope it is called on and lookup searches innermost first. -/
theorem shadowing_spec :
    ∀ (st : Store) (p : Nat) (fr : Frame) (x : String) (v1 v2 : SExpr),
      st[p]? = some fr → lookupBinding fr.bindings x = some v1 →
      lookupVar (defineVar (extendEnv st p).1 (extendEnv st p).2 x v2) x (extendEnv st p).2
          = .ok v2
      ∧ (defineVar (extendEnv st p).1 (extendEnv st p).2 x v2)[p]? = some fr
      ∧ lookupVar (defineVar (extendEnv st p).1 (extendEnv st p).2 x v2) x p = .ok v1 := by
  intro st p fr x v1 v2 hp hx
  have hplt : p < st.length := getElem?_lt_length hp
  have hdv : defineVar (st ++ [⟨[], some p⟩]) st.length x v2
      = st ++ [⟨[(x, v2)], some p⟩] := by
    rw [defineVar_eq x v2 (getElem?_append_len st ⟨[], some p⟩), set_append_len]
    rfl
  refine ⟨?_, ?_, ?_⟩
  · show lookupVar (defineVar (st ++ [⟨[], some p⟩]) st.length x v2) x st.length = .ok v2
    rw [hdv]
    exact lookupIn_found (getElem?_append_len st ⟨[(x, v2)], some p⟩)
      (by simp [lookupBinding])
  · show (defineVar (st ++ [⟨[], some p⟩]) st.length x v2)[p]? = some fr
    rw [hdv, getElem?_append_lt st _ p hplt]
    exact hp
  · show lookupVar (defineVar (st ++ [⟨[], some p⟩]) st.length x v2) x p = .ok v1
    rw [hdv]
    exact lookupIn_found (by rw [getElem?_append_lt st _ p hplt]; exact hp) hx

/-- Claim C7 witness: parent frame binding x to 42, child defines x to
17: lookup from the child yields 17, the parent's frame is unchanged and
lookup from the parent still yields 42. -/
theorem shadowing_spec_witness :
    lookupVar (defineVar (extendEnv ([⟨[("x", SExpr.number 42)], none⟩] : Store) 0).1
        (extendEnv ([⟨[("x", SExpr.number 42)], none⟩] : Store) 0).2 "x" (.number 17)) "x"
        (extendEnv ([⟨[("x", SExpr.number 42)], none⟩] : Store) 0).2
      = .ok (.number 17)
  ∧ (defineVar (extendEnv ([⟨[("x", SExpr.number 42)], none⟩] : Store) 0).1
        (extendEnv ([⟨[("x", SExpr.number 42)], none⟩] : Store) 0).2 "x" (.number 17))[0]?
      = some ⟨[("x", SExpr.number 42)], none⟩
  ∧ lookupVar (defineVar (extendEnv ([⟨[("x", SExpr.number 42)], none⟩] : Store) 0).1
        (extendEnv ([⟨[("x", SExpr.number 42)], none⟩] : Store) 0).2 "x" (.number 17)) "x" 0
      = .ok (.number 42) :=
  shadowing_spec ([⟨[("x", SExpr.number 42)], none⟩] : Store) 0
    (⟨[("x", SExpr.number 42)], none⟩ : Frame) "x" (.number 42) (.number 17) rfl rfl

end Zylisp
